import Mathlib

/-!
# Verification of the bootstrap orchestrator core (`src/bootstrap/lib.rs`)

Shallow embedding of the staging, invalidation, toolchain-resolution and
versioning logic of the bootstrap orchestrator, together with proofs of the
behavioural properties stated in the specification.

Filesystem paths are modelled as lists of path components (`List String`);
a single component produced by string formatting is modelled as the
corresponding `String` concatenation.  Byte strings (stamp files) are
modelled as `List Nat` with each element a byte value.
-/

namespace Bootstrap

/-- The various "modes" of invoking Cargo, from `enum Mode` in
`src/bootstrap/lib.rs`: what is being built, which determines the output
subdirectory. -/
inductive Mode where
  | Std
  | Rustc
  | Codegen
  | ToolBootstrap
  | ToolStd
  | ToolRustc
deriving DecidableEq, Repr

/-- `Mode::is_tool`: `matches!(self, Mode::ToolBootstrap | Mode::ToolRustc | Mode::ToolStd)`. -/
def Mode.is_tool : Mode → Bool
  | Mode.ToolBootstrap => true
  | Mode.ToolRustc => true
  | Mode.ToolStd => true
  | _ => false

/-- `Mode::must_support_dlopen`: `matches!(self, Mode::Std | Mode::Codegen)`. -/
def Mode.must_support_dlopen : Mode → Bool
  | Mode.Std => true
  | Mode.Codegen => true
  | _ => false

/-- `struct Compiler { stage: u32, host: TargetSelection }`.  The stage is a
machine integer used only with `≥`, modelled as `Nat`; the host target triple
is modelled as its `String`. -/
structure Compiler where
  stage : Nat
  host : String
deriving DecidableEq, Repr

/-- The suffix table of `Build::stage_out`:
`match mode { Std => "-std", Rustc => "-rustc", Codegen => "-codegen",
ToolBootstrap => "-bootstrap-tools", ToolStd | ToolRustc => "-tools" }`. -/
def modeSuffix : Mode → String
  | Mode.Std => "-std"
  | Mode.Rustc => "-rustc"
  | Mode.Codegen => "-codegen"
  | Mode.ToolBootstrap => "-bootstrap-tools"
  | Mode.ToolStd => "-tools"
  | Mode.ToolRustc => "-tools"

/-- `Build::stage_out`:
`self.out.join(&*compiler.host.triple).join(format!("stage{}{}", compiler.stage, suffix))`.
The build directory `out` is a path (list of components); joining appends one
component per `join`. -/
def stage_out (out : List String) (compiler : Compiler) (mode : Mode) : List String :=
  out ++ [compiler.host, "stage" ++ toString compiler.stage ++ modeSuffix mode]

/-- The fields of `Build` consulted by `Build::force_use_stage1`:
`config.full_bootstrap`, the configured `hosts`, and the `build` platform. -/
structure StageConfig where
  full_bootstrap : Bool
  hosts : List String
  build : String
deriving DecidableEq, Repr

/-- `Build::force_use_stage1`:
`!self.config.full_bootstrap && compiler.stage >= 2
  && (self.hosts.iter().any(|h| *h == target) || target == self.build)`. -/
def force_use_stage1 (b : StageConfig) (compiler : Compiler) (target : String) : Bool :=
  !b.full_bootstrap && decide (2 ≤ compiler.stage)
    && (b.hosts.any (fun h => h == target) || target == b.build)

/-- `Build::release`, branching on `self.config.channel`.  The availability of
version-control history (`self.rust_info.is_git()`, whose definition lives in
`channel.rs` outside the excerpt) is abstracted as the boolean `isGit`, and the
memoized prerelease ordinal `self.beta_prerelease_version()` as `ordinal`. -/
def release (channel : String) (isGit : Bool) (ordinal : Nat) (num : String) : String :=
  if channel = "stable" then num
  else if channel = "beta" then
    if isGit then num ++ "-beta." ++ toString ordinal else num ++ "-beta"
  else if channel = "nightly" then num ++ "-nightly"
  else num ++ "-dev"

/-- `Build::beta_prerelease_version` with the `Cell`-based memoization made
explicit: given the current cache contents and the (expensive) git merge-commit
count, return the ordinal together with the updated cache. -/
def beta_prerelease_version (cache : Option Nat) (gitCount : Nat) : Nat × Option Nat :=
  match cache with
  | some s => (s, some s)
  | none => (gitCount, some gitCount)

/-- The filesystem state relevant to one call of `Build::clear_if_dirty`:
the target directory (its existence and its entries other than the sentinel),
the sentinel file `dir/.stamp` (its modification time, `none` when absent),
the input path's modification time, and the current clock. -/
structure DirState where
  dirExists : Bool
  contents : List String
  stamp : Option Nat
  inputMtime : Option Nat
  now : Nat
deriving DecidableEq, Repr

/-- Modelled from the spec: `util::mtime` (outside the excerpt) returns a
file's modification time, falling back to the Unix epoch when the file is
absent — the spec's "sentinel ... older (or absent)". -/
def mtimeOf : Option Nat → Nat
  | none => 0
  | some t => t

/-- `Build::clear_if_dirty`: if the sentinel's mtime is older than the
input's, remove the whole directory and mark it cleared; otherwise, if the
sentinel exists, return immediately; in the remaining cases (re-)create the
directory and the sentinel (`fs::create_dir_all` then `File::create`, which
stamps it with the current time). -/
def clear_if_dirty (s : DirState) : DirState × Bool :=
  if mtimeOf s.stamp < mtimeOf s.inputMtime then
    ({ s with dirExists := true, contents := [], stamp := some s.now }, true)
  else if s.stamp.isSome then
    (s, false)
  else
    ({ s with dirExists := true, stamp := some s.now }, false)

/-- The tail of `Build::build` (`src/bootstrap/lib.rs:516-524`): after the
real run, the deferred-failure list is inspected; when non-empty, a header and
one line per failure are printed and the process exits with code 1, otherwise
nothing is printed and no exit happens on this path.  Returns the printed
lines and the exit code requested (`none` when execution falls through). -/
def finishBuild (failures : List String) : List String × Option Nat :=
  if failures.length > 0 then
    (("\n" ++ toString failures.length ++ " command(s) did not execute successfully:\n")
        :: failures.map (fun f => "  - " ++ f ++ "\n"),
      some 1)
  else ([], none)

/-- `enum DependencyType`: how a build artifact recorded in a stamp file is
classified (host-only, target-linked, or target-self-contained). -/
inductive DependencyType where
  | Host
  | Target
  | TargetSelfContained
deriving DecidableEq, Repr

/-- UTF-8 decoding of a byte sequence to a list of Unicode scalar values
(`str::from_utf8` on the path bytes of a stamp record), rejecting truncated
sequences, continuation-byte errors, overlong encodings, surrogates and
out-of-range values.  The fuel argument only bounds recursion depth; each step
consumes at least one byte, so `fuel = length` always suffices. -/
def utf8DecodeAux : Nat → List Nat → Option (List Nat)
  | _, [] => some []
  | 0, _ :: _ => none
  | fuel + 1, b :: rest =>
    if b < 0x80 then
      (utf8DecodeAux fuel rest).map (fun cs => b :: cs)
    else if b < 0xC2 then none
    else if b < 0xE0 then
      match rest with
      | c1 :: rest2 =>
        if 0x80 ≤ c1 ∧ c1 < 0xC0 then
          (utf8DecodeAux fuel rest2).map (fun cs => ((b - 0xC0) * 64 + (c1 - 0x80)) :: cs)
        else none
      | [] => none
    else if b < 0xF0 then
      match rest with
      | c1 :: c2 :: rest3 =>
        if (0x80 ≤ c1 ∧ c1 < 0xC0) ∧ (0x80 ≤ c2 ∧ c2 < 0xC0) then
          let cp := (b - 0xE0) * 4096 + (c1 - 0x80) * 64 + (c2 - 0x80)
          if 0x800 ≤ cp ∧ (cp < 0xD800 ∨ 0xE000 ≤ cp) then
            (utf8DecodeAux fuel rest3).map (fun cs => cp :: cs)
          else none
        else none
      | _ => none
    else if b < 0xF5 then
      match rest with
      | c1 :: c2 :: c3 :: rest4 =>
        if (0x80 ≤ c1 ∧ c1 < 0xC0) ∧ (0x80 ≤ c2 ∧ c2 < 0xC0) ∧ (0x80 ≤ c3 ∧ c3 < 0xC0) then
          let cp := (b - 0xF0) * 262144 + (c1 - 0x80) * 4096 + (c2 - 0x80) * 64 + (c3 - 0x80)
          if 0x10000 ≤ cp ∧ cp < 0x110000 then
            (utf8DecodeAux fuel rest4).map (fun cs => cp :: cs)
          else none
        else none
      | _ => none
    else none

/-- UTF-8 decode of a full byte list (paths in stamp records are
`PathBuf::from(str::from_utf8(bytes))`, modelled as decoded scalar values). -/
def utf8Decode (l : List Nat) : Option (List Nat) :=
  utf8DecodeAux l.length l

/-- One record of the stamp-file format, as the specification describes it:
the first byte is the class tag — `h` (104) for `Host`, `s` (115) for
`TargetSelfContained`, `t` (116) for `Target`, anything else is a format
error — and the remaining bytes are the UTF-8 path. -/
def parseRecord (part : List Nat) : Option (List Nat × DependencyType) :=
  match part with
  | [] => none
  | b :: rest =>
    match (if b = 104 then some DependencyType.Host
           else if b = 115 then some DependencyType.TargetSelfContained
           else if b = 116 then some DependencyType.Target
           else none),
          utf8Decode rest with
    | some d, some p => some (p, d)
    | _, _ => none

/-- The loop body of `Build::read_stamp_file` over the zero-byte-separated
parts: empty parts are skipped (`continue`); otherwise the first byte selects
the `DependencyType` (`unreachable!()`, i.e. failure, on any other byte), the
tail is decoded as a UTF-8 path (`t!`, i.e. failure, on invalid bytes) and the
pair is pushed onto the result. -/
def readStampGo : List (List Nat) → Option (List (List Nat × DependencyType))
  | [] => some []
  | part :: parts =>
    match part with
    | [] => readStampGo parts
    | b :: rest =>
      match (if b = 104 then some DependencyType.Host
             else if b = 115 then some DependencyType.TargetSelfContained
             else if b = 116 then some DependencyType.Target
             else none) with
      | none => none
      | some d =>
        match utf8Decode rest with
        | none => none
        | some p => (readStampGo parts).map (fun ps => (p, d) :: ps)

/-- `Build::read_stamp_file`: under dry-run the empty list is returned without
reading; otherwise the file contents are split on the zero byte
(`contents.split(|b| *b == 0)`) and parsed record by record. -/
def read_stamp_file (dryRun : Bool) (contents : List Nat) :
    Option (List (List Nat × DependencyType)) :=
  if dryRun then some [] else readStampGo (contents.splitOn 0)

/-- The value of a filesystem object, for `Build::copy`: either a symbolic
link (with its link target) or a regular file with content bytes, permission
bits and access/modification times. -/
inductive FileVal where
  | symlink (target : String)
  | regular (content : List Nat) (perms : Nat) (atime : Nat) (mtime : Nat)
deriving DecidableEq, Repr

/-- The destination of a `Build::copy` call: the file value, if present, and
whether the entry is a hard link sharing `src`'s inode. -/
structure DstEntry where
  val : FileVal
  hardLinkToSrc : Bool
deriving DecidableEq, Repr

/-- The filesystem state relevant to one `Build::copy` call: the file at the
source path (`none` = absent) and the entry at the destination path. -/
structure CopyState where
  srcFile : Option FileVal
  dstFile : Option DstEntry
deriving DecidableEq, Repr

/-- `Build::copy`: no-op under dry-run or when the two paths are equal;
otherwise remove `dst`, then — reading `src`'s `symlink_metadata`, a panic
(`none`) when `src` is absent — recreate a symlink, or try a hard link
(controlled by `hardLinkOk`, since `fs::hard_link` can fail e.g. across
devices), falling back to a content copy followed by `set_permissions` and
`set_file_times` replicating `src`'s metadata. -/
def copy (dryRun samePath hardLinkOk : Bool) (s : CopyState) : Option CopyState :=
  if dryRun then some s
  else if samePath then some s
  else
    match s.srcFile with
    | none => none
    | some (FileVal.symlink tgt) =>
      some { s with dstFile := some ⟨FileVal.symlink tgt, false⟩ }
    | some (FileVal.regular c p a m) =>
      if hardLinkOk then
        some { s with dstFile := some ⟨FileVal.regular c p a m, true⟩ }
      else
        some { s with dstFile := some ⟨FileVal.regular c p a m, false⟩ }

/-- Whether `pat` occurs at the start of `text` (character lists). -/
def listStartsWith : List Char → List Char → Bool
  | _, [] => true
  | [], _ :: _ => false
  | a :: as, b :: bs => a == b && listStartsWith as bs

/-- Whether `pat` occurs anywhere inside `text` (character lists). -/
def listHasSub : List Char → List Char → Bool
  | [], pat => pat.isEmpty
  | c :: rest, pat => listStartsWith (c :: rest) pat || listHasSub rest pat

/-- `TargetSelection::contains` (a substring test on the target triple), used
by `linker` for the `vxworks` and `msvc` checks. -/
def strContains (s pat : String) : Bool :=
  listHasSub s.data pat.data

/-- The `Build` and `Config` fields read by `Build::linker`: the per-target
configured linker override (`config.target_config[t].linker`), the probed
C++/C compiler maps (`self.cxx`/`self.cc`, `none` modelling the panic of a
direct index on a missing key), the build platform, `config.use_lld`, the
`util::use_host_linker` predicate (defined outside the excerpt, abstracted),
and the path of the initial `rust-lld`. -/
structure LinkerConfig where
  targetLinker : String → Option String
  cxxOf : String → Option String
  ccOf : String → Option String
  build : String
  useLld : Bool
  useHostLinker : String → Bool
  initialLld : String

/-- `Build::is_fuse_ld_lld`: `self.config.use_lld && !target.contains("msvc")`
— LLD is used through `-fuse-ld=lld` rather than directly except on MSVC
targets. -/
def is_fuse_ld_lld (cfg : LinkerConfig) (target : String) : Bool :=
  cfg.useLld && !(strContains target "msvc")

/-- `Build::linker`: the linker override for a target, `some none` meaning "no
override" and the outer `none` modelling a panic on a missing toolchain map
entry.  The branches, first match winning: the per-target configured
override; the C++ compiler on `vxworks` targets; the target's C compiler when
cross-compiling to a non-MSVC target that uses the host linker; the initial
`rust-lld` when `use_lld` is set, not suppressed via `-fuse-ld=lld` for this
target, and the target is the build platform; otherwise no override. -/
def linker (cfg : LinkerConfig) (target : String) : Option (Option String) :=
  match cfg.targetLinker target with
  | some l => some (some l)
  | none =>
    if strContains target "vxworks" then
      (cfg.cxxOf target).map some
    else if target ≠ cfg.build ∧ cfg.useHostLinker target = true
        ∧ strContains target "msvc" = false then
      (cfg.ccOf target).map some
    else if cfg.useLld = true ∧ is_fuse_ld_lld cfg target = false
        ∧ cfg.build = target then
      some (some cfg.initialLld)
    else
      some none

/-- A node of the crate graph (`struct Crate`), restricted to the fields the
traversal reads: the interned crate name and the names of its dependencies. -/
structure Crate where
  name : String
  deps : List String
deriving DecidableEq, Repr

/-- The `Build` state read by `in_tree_crates`: the `crates` map (an
association list keyed by crate name) and the configuration predicates gating
the optional dependencies (`config.profiler_enabled(t)`,
`config.any_profiler_enabled()`, `config.llvm_enabled()`). -/
structure CrateGraph where
  crates : List (String × Crate)
  profilerEnabledFor : String → Bool
  profilerEnabledAny : Bool
  llvmEnabled : Bool

/-- Map lookup `self.crates[&krate]` made total: `none` models the panic on a
missing key. -/
def findCrate (g : CrateGraph) (name : String) : Option Crate :=
  (g.crates.find? (fun p => p.1 == name)).map (fun p => p.2)

/-- `self.crates.contains_key(dep)`. -/
def containsKey (g : CrateGraph) (name : String) : Bool :=
  (g.crates.find? (fun p => p.1 == name)).isSome

/-- The profiler gate for a dependency named `profiler_builtins`:
`target.map(|t| self.config.profiler_enabled(t)).unwrap_or(self.config.any_profiler_enabled())`. -/
def profGate (g : CrateGraph) (target : Option String) : Bool :=
  match target with
  | some t => g.profilerEnabledFor t
  | none => g.profilerEnabledAny

/-- The inner `for dep in &krate.deps` loop of `in_tree_crates`: non-workspace
names are skipped; an in-graph dependency is inserted into the visited set,
and pushed onto the work stack only when it was newly inserted and passes the
name gates (`build_helper` never, `profiler_builtins` only with profiling
enabled, `rustc_codegen_llvm` only with the LLVM backend enabled). -/
def pushDeps (g : CrateGraph) (target : Option String) :
    List String → List String → List String → List String × List String
  | [], list, visited => (list, visited)
  | dep :: ds, list, visited =>
    if containsKey g dep then
      if visited.contains dep then
        pushDeps g target ds list visited
      else
        if dep ≠ "build_helper"
            ∧ (dep ≠ "profiler_builtins" ∨ profGate g target = true)
            ∧ (dep ≠ "rustc_codegen_llvm" ∨ g.llvmEnabled = true) then
          pushDeps g target ds (dep :: list) (dep :: visited)
        else
          pushDeps g target ds list (dep :: visited)
    else
      pushDeps g target ds list visited

/-- The main `while let Some(krate) = list.pop()` loop of `in_tree_crates`
(the stack is modelled with its top at the head): pop a name, look it up
(panic — `none` — when absent), append the crate to the result and push its
eligible dependencies.  The loop runs at most `1 + |crates|` iterations, since
every pushed name was freshly inserted into the visited set; `fuel` is that
bound made explicit, so exhaustion (`none`) is unreachable from
`in_tree_crates`. -/
def inTreeGo (g : CrateGraph) (target : Option String) :
    Nat → List String → List String → List Crate → Option (List Crate)
  | _, [], _, ret => some ret
  | 0, _ :: _, _, _ => none
  | fuel + 1, krate :: rest, visited, ret =>
    match findCrate g krate with
    | none => none
    | some c =>
      let lv := pushDeps g target c.deps rest visited
      inTreeGo g target fuel lv.1 lv.2 (ret ++ [c])

/-- `Build::in_tree_crates(root, target)`: transitive closure of in-workspace
dependencies from `root`, root first. -/
def in_tree_crates (g : CrateGraph) (root : String) (target : Option String) :
    Option (List Crate) :=
  inTreeGo g target (g.crates.length + 1) [root] [] []

/-- The concrete graph of the specification's crate-graph scenario:
`root → {a, b}`, `a → {c}`, `b → {}`, `c → {}`, all in-workspace, no gated
names, profiling and the LLVM backend disabled. -/
def exampleGraph : CrateGraph :=
  { crates := [("root", ⟨"root", ["a", "b"]⟩), ("a", ⟨"a", ["c"]⟩),
      ("b", ⟨"b", []⟩), ("c", ⟨"c", []⟩)],
    profilerEnabledFor := fun _ => false,
    profilerEnabledAny := false,
    llvmEnabled := false }

/-- A graph whose root has a dependency name (`serde`) that is absent from the
graph: an external crate, to be silently excluded from the closure. -/
def exampleGraphExt : CrateGraph :=
  { crates := [("root", ⟨"root", ["a", "serde"]⟩), ("a", ⟨"a", []⟩)],
    profilerEnabledFor := fun _ => false,
    profilerEnabledAny := false,
    llvmEnabled := false }

end Bootstrap

namespace Bootstrap

lemma mtimeOf_some (t : Nat) : mtimeOf (some t) = t := rfl

lemma mtimeOf_none : mtimeOf none = 0 := rfl

lemma str_append_cancel_left (s a b : String) (h : s ++ a = s ++ b) : a = b := by
  have hd : (s ++ a).data = (s ++ b).data := congrArg String.data h
  simp only [String.data_append] at hd
  exact String.ext (List.append_cancel_left hd)

/-- Claim C10: `is_tool` holds exactly on the three tool modes,
`must_support_dlopen` holds exactly on `Std` and `Codegen`, and hence the
dynamic-loading requirement never holds for a tool mode. -/
theorem mode_predicates_characterization :
    (∀ m : Mode, m.is_tool = true ↔
        (m = Mode.ToolBootstrap ∨ m = Mode.ToolStd ∨ m = Mode.ToolRustc))
    ∧ (∀ m : Mode, m.must_support_dlopen = true ↔ (m = Mode.Std ∨ m = Mode.Codegen))
    ∧ (∀ m : Mode, m.is_tool = true → m.must_support_dlopen = false) := by
  refine ⟨?_, ?_, ?_⟩ <;> intro m <;> cases m <;> simp [Mode.is_tool, Mode.must_support_dlopen]

/-- Witness for C10 at a concrete mode: `ToolStd` is a tool mode, so it need
not support dynamic loading. -/
theorem mode_predicates_characterization_witness :
    Mode.must_support_dlopen Mode.ToolStd = false :=
  mode_predicates_characterization.2.2 Mode.ToolStd rfl

/-- Claim C1 counterexample: `ToolStd` and `ToolRustc` are distinct `Mode` values
that map to the same stage output directory, so `stage_out` is not
collision-free across all pairs of distinct modes. -/
theorem stage_out_collision_toolstd_toolrustc :
    stage_out ["build"] ⟨1, "x86_64-unknown-linux-gnu"⟩ Mode.ToolStd
      = stage_out ["build"] ⟨1, "x86_64-unknown-linux-gnu"⟩ Mode.ToolRustc
    ∧ Mode.ToolStd ≠ Mode.ToolRustc := by
  exact ⟨rfl, by decide⟩

/-- Claim C1 (amended): for a fixed `(stage, host)` compiler and build directory,
two modes share a stage output directory exactly when they are equal or both
belong to the pair `{ToolStd, ToolRustc}`, which intentionally shares the
`"-tools"` suffix; all other pairs of distinct modes get distinct
directories. -/
theorem stage_out_injective_except_tools (out : List String) (c : Compiler)
    (m₁ m₂ : Mode) :
    stage_out out c m₁ = stage_out out c m₂ ↔
      (m₁ = m₂ ∨ ((m₁ = Mode.ToolStd ∨ m₁ = Mode.ToolRustc)
        ∧ (m₂ = Mode.ToolStd ∨ m₂ = Mode.ToolRustc))) := by
  constructor
  · intro h
    have h2 : "stage" ++ toString c.stage ++ modeSuffix m₁
        = "stage" ++ toString c.stage ++ modeSuffix m₂ := by
      simpa [stage_out] using h
    have h3 := str_append_cancel_left ("stage" ++ toString c.stage) _ _ h2
    cases m₁ <;> cases m₂ <;> simp_all [modeSuffix]
  · rintro (rfl | ⟨h1, h2⟩)
    · rfl
    · rcases h1 with rfl | rfl <;> rcases h2 with rfl | rfl <;> rfl

/-- Witness for C1 (amended) at a concrete instance: distinct modes with
distinct suffixes get distinct directories, and the tool-using pair shares
one. -/
theorem stage_out_injective_except_tools_witness :
    stage_out ["o"] ⟨2, "h"⟩ Mode.Std ≠ stage_out ["o"] ⟨2, "h"⟩ Mode.Rustc
    ∧ stage_out ["o"] ⟨2, "h"⟩ Mode.ToolStd = stage_out ["o"] ⟨2, "h"⟩ Mode.ToolRustc := by
  constructor
  · intro h
    have := (stage_out_injective_except_tools ["o"] ⟨2, "h"⟩ Mode.Std Mode.Rustc).mp h
    simp at this
  · exact (stage_out_injective_except_tools ["o"] ⟨2, "h"⟩ Mode.ToolStd Mode.ToolRustc).mpr
      (Or.inr ⟨Or.inl rfl, Or.inr rfl⟩)

/-- Claim C4: `force_use_stage1` returns `true` exactly when full bootstrap is not
configured, the compiler stage is at least 2, and the target is one of the
configured hosts or the build platform; in particular a stage-1 compiler never
forces stage-1 reuse. -/
theorem force_use_stage1_characterization (b : StageConfig) (c : Compiler)
    (target : String) :
    (force_use_stage1 b c target = true ↔
      (b.full_bootstrap = false ∧ 2 ≤ c.stage ∧ (target ∈ b.hosts ∨ target = b.build)))
    ∧ (c.stage = 1 → force_use_stage1 b c target = false) := by
  constructor
  · simp only [force_use_stage1, Bool.and_eq_true, Bool.or_eq_true, Bool.not_eq_true',
      decide_eq_true_eq, List.any_eq_true, beq_iff_eq]
    constructor
    · rintro ⟨⟨hf, hs⟩, ht⟩
      refine ⟨hf, hs, ?_⟩
      rcases ht with ⟨x, hx, rfl⟩ | rfl
      · exact Or.inl hx
      · exact Or.inr rfl
    · rintro ⟨hf, hs, ht⟩
      refine ⟨⟨hf, hs⟩, ?_⟩
      rcases ht with hx | rfl
      · exact Or.inl ⟨target, hx, rfl⟩
      · exact Or.inr rfl
  · intro h1
    simp [force_use_stage1, h1]

/-- Witness for C4: with full bootstrap disabled, a stage-2 compiler and the
target among the hosts, the result is `true`; and at stage 1 it is `false`. -/
theorem force_use_stage1_characterization_witness :
    force_use_stage1 ⟨false, ["t1"], "b"⟩ ⟨2, "b"⟩ "t1" = true
    ∧ force_use_stage1 ⟨true, ["t1"], "b"⟩ ⟨1, "b"⟩ "t1" = false := by
  constructor
  · exact (force_use_stage1_characterization ⟨false, ["t1"], "b"⟩ ⟨2, "b"⟩ "t1").1.2
      ⟨rfl, by decide, Or.inl (by decide)⟩
  · exact (force_use_stage1_characterization ⟨true, ["t1"], "b"⟩ ⟨1, "b"⟩ "t1").2 rfl

/-- Claim C5: the release string is the numeric version unchanged on `stable`;
`num ++ "-beta." ++ N` on `beta` with version-control history and
`num ++ "-beta"` without; `num ++ "-nightly"` on `nightly`; and
`num ++ "-dev"` on every other channel. -/
theorem release_characterization (num : String) (g : Bool) (n : Nat) :
    release "stable" g n num = num
    ∧ release "beta" true n num = num ++ "-beta." ++ toString n
    ∧ release "beta" false n num = num ++ "-beta"
    ∧ release "nightly" g n num = num ++ "-nightly"
    ∧ (∀ ch : String, ch ≠ "stable" → ch ≠ "beta" → ch ≠ "nightly" →
        release ch g n num = num ++ "-dev") := by
  refine ⟨rfl, rfl, rfl, rfl, ?_⟩
  intro ch h1 h2 h3
  simp [release, h1, h2, h3]

/-- Claim C2 counterexample: two concrete states refuting the claim as stated.
First, with a current sentinel (stamp mtime 5, input mtime 3, now 10) the call
returns without touching the sentinel, so its timestamp is *not* refreshed to
"now".  Second, with sentinel and input both absent, the directory is *not*
cleared and the call returns `false`, though the claim says an absent sentinel
always forces clearing and `true`. -/
theorem clear_if_dirty_not_always_refreshed :
    (clear_if_dirty ⟨true, ["f"], some 5, some 3, 10⟩
        = (⟨true, ["f"], some 5, some 3, 10⟩, false)
      ∧ (5 : Nat) ≠ 10)
    ∧ (clear_if_dirty ⟨false, [], none, none, 10⟩
        = (⟨true, [], some 10, none, 10⟩, false)) := by
  exact ⟨⟨rfl, by decide⟩, rfl⟩

/-- Claim C2 (amended): assuming the clock is at or after the input's mtime and the
sentinel can only exist inside an existing directory, `clear_if_dirty`
clears the directory and returns `true` exactly when the sentinel's mtime
(epoch when absent) is older than the input's; when it clears, the previous
contents are gone and the sentinel is recreated at "now"; when the sentinel is
already current it returns with the state untouched (in particular the
sentinel is not refreshed); when the sentinel is absent but not outdated the
directory and sentinel are (re-)created at "now" with contents preserved; and
in all cases on return the directory exists, the sentinel exists, and the
sentinel's mtime is at least the input's. -/
theorem clear_if_dirty_postcondition (s : DirState)
    (hclock : mtimeOf s.inputMtime ≤ s.now)
    (hwf : s.stamp.isSome = true → s.dirExists = true) :
    (clear_if_dirty s).1.dirExists = true
    ∧ (clear_if_dirty s).1.stamp.isSome = true
    ∧ mtimeOf s.inputMtime ≤ mtimeOf (clear_if_dirty s).1.stamp
    ∧ ((clear_if_dirty s).2 = true ↔ mtimeOf s.stamp < mtimeOf s.inputMtime)
    ∧ ((clear_if_dirty s).2 = true →
        (clear_if_dirty s).1.contents = [] ∧ (clear_if_dirty s).1.stamp = some s.now)
    ∧ ((clear_if_dirty s).2 = false → (clear_if_dirty s).1.contents = s.contents)
    ∧ ((clear_if_dirty s).2 = false → s.stamp.isSome = true → (clear_if_dirty s).1 = s)
    ∧ ((clear_if_dirty s).2 = false → s.stamp.isSome = false →
        (clear_if_dirty s).1.stamp = some s.now) := by
  by_cases hdirty : mtimeOf s.stamp < mtimeOf s.inputMtime
  · simp only [clear_if_dirty, if_pos hdirty]
    simp [mtimeOf_some, hdirty, hclock]
  · by_cases hstamp : s.stamp.isSome = true
    · have hd := hwf hstamp
      simp only [clear_if_dirty, if_neg hdirty, if_pos hstamp]
      simp [hd, hstamp, hdirty, Nat.not_lt.mp hdirty]
    · have hn : s.stamp = none := Option.not_isSome_iff_eq_none.mp (by simpa using hstamp)
      rw [hn] at hdirty
      simp only [clear_if_dirty, hn, Option.isSome_none, if_neg hdirty]
      simp [mtimeOf_some, hdirty, hclock]

/-- Witness for C2 (amended) on the dirty case: stamp mtime 1, input mtime 7,
clock 9 — the directory is cleared and the sentinel recreated at time 9. -/
theorem clear_if_dirty_postcondition_witness :
    (clear_if_dirty ⟨true, ["old"], some 1, some 7, 9⟩).2 = true
    ∧ (clear_if_dirty ⟨true, ["old"], some 1, some 7, 9⟩).1.contents = []
    ∧ (clear_if_dirty ⟨true, ["old"], some 1, some 7, 9⟩).1.stamp = some 9 := by
  have h := clear_if_dirty_postcondition ⟨true, ["old"], some 1, some 7, 9⟩
    (by decide) (fun _ => rfl)
  have h2 : (clear_if_dirty ⟨true, ["old"], some 1, some 7, 9⟩).2 = true :=
    h.2.2.2.1.mpr (by decide)
  exact ⟨h2, (h.2.2.2.2.1 h2).1, (h.2.2.2.2.1 h2).2⟩

/-- Claim C7: linker selection precedence, first match winning: (a) an explicit
per-target configured override; (b) a vxworks target uses the C++ compiler as
linker; (c) a cross-compiled (`target ≠ build`) non-MSVC target that uses the
host linker gets the target's C compiler; (d) when in-tree lld is enabled,
not used via `-fuse-ld=lld` for this target, and the target equals the build
platform, the initial lld is used; (e) otherwise there is no override. -/
theorem linker_precedence (cfg : LinkerConfig) (t : String) :
    (∀ l, cfg.targetLinker t = some l → linker cfg t = some (some l))
    ∧ (cfg.targetLinker t = none → strContains t "vxworks" = true →
        linker cfg t = (cfg.cxxOf t).map some)
    ∧ (cfg.targetLinker t = none → strContains t "vxworks" = false →
        t ≠ cfg.build → cfg.useHostLinker t = true → strContains t "msvc" = false →
        linker cfg t = (cfg.ccOf t).map some)
    ∧ (cfg.targetLinker t = none → strContains t "vxworks" = false →
        ¬(t ≠ cfg.build ∧ cfg.useHostLinker t = true ∧ strContains t "msvc" = false) →
        cfg.useLld = true → is_fuse_ld_lld cfg t = false → cfg.build = t →
        linker cfg t = some (some cfg.initialLld))
    ∧ (cfg.targetLinker t = none → strContains t "vxworks" = false →
        ¬(t ≠ cfg.build ∧ cfg.useHostLinker t = true ∧ strContains t "msvc" = false) →
        ¬(cfg.useLld = true ∧ is_fuse_ld_lld cfg t = false ∧ cfg.build = t) →
        linker cfg t = some none) := by
  refine ⟨?_, ?_, ?_, ?_, ?_⟩
  · intro l hl
    simp [linker, hl]
  · intro h0 hvx
    simp [linker, h0, hvx]
  · intro h0 hvx hcross hhost hmsvc
    simp [linker, h0, hvx, hcross, hhost, hmsvc]
  · intro h0 hvx hnc hlld hfuse hbuild
    simp [linker, h0, hvx, hnc, hlld, hfuse, hbuild]
  · intro h0 hvx hnc hnl
    simp [linker, h0, hvx, hnc, hnl]

/-- Witness for C7: a cross-compiled non-MSVC target with no configured
override and no vxworks marker links with the target's C compiler. -/
theorem linker_precedence_witness :
    linker
      { targetLinker := fun _ => none,
        cxxOf := fun _ => some "g++",
        ccOf := fun _ => some "aarch64-cc",
        build := "x86_64-unknown-linux-gnu",
        useLld := false,
        useHostLinker := fun _ => true,
        initialLld := "rust-lld" }
      "aarch64-unknown-linux-gnu" = some (some "aarch64-cc") := by
  have h := (linker_precedence
    { targetLinker := fun _ => none,
      cxxOf := fun _ => some "g++",
      ccOf := fun _ => some "aarch64-cc",
      build := "x86_64-unknown-linux-gnu",
      useLld := false,
      useHostLinker := fun _ => true,
      initialLld := "rust-lld" }
    "aarch64-unknown-linux-gnu").2.2.1
    rfl (by decide) (by decide) rfl (by decide)
  simpa using h

lemma inTreeGo_values (g : CrateGraph) (target : Option String) :
    ∀ (fuel : Nat) (list visited : List String) (ret l : List Crate),
      (∀ c ∈ ret, ∃ p ∈ g.crates, p.2 = c) →
      inTreeGo g target fuel list visited ret = some l →
      ∀ c ∈ l, ∃ p ∈ g.crates, p.2 = c := by
  intro fuel
  induction fuel with
  | zero =>
    intro list visited ret l hret h
    cases list with
    | nil =>
      obtain rfl : ret = l := by simpa [inTreeGo] using h
      exact hret
    | cons k rest => simp [inTreeGo] at h
  | succ n ih =>
    intro list visited ret l hret h
    cases list with
    | nil =>
      obtain rfl : ret = l := by simpa [inTreeGo] using h
      exact hret
    | cons krate rest =>
      rw [inTreeGo] at h
      cases hf : findCrate g krate with
      | none => rw [hf] at h; cases h
      | some c =>
        rw [hf] at h
        refine ih _ _ _ _ ?_ h
        intro x hx
        rcases List.mem_append.mp hx with hx | hx
        · exact hret x hx
        · obtain rfl : x = c := by simpa using hx
          obtain ⟨p, hp, hpc⟩ := Option.map_eq_some'.mp hf
          exact ⟨p, List.mem_of_find?_eq_some hp, hpc⟩

/-- Claim C6: every crate returned by `in_tree_crates` is a crate of the graph, so
dependency names absent from the graph are never included; on the graph
`root → {a, b}`, `a → {c}`, `b → {}`, `c → {}` the result exists, has the
root first, and equals `{root, a, b, c}` as a set; and on a graph whose root
has the non-workspace dependency `serde`, that name is silently excluded. -/
theorem in_tree_crates_closure :
    (∀ (g : CrateGraph) (root : String) (target : Option String) (l : List Crate),
      in_tree_crates g root target = some l →
      ∀ c ∈ l, ∃ p ∈ g.crates, p.2 = c)
    ∧ (∃ l : List Crate,
        in_tree_crates exampleGraph "root" none = some l
        ∧ List.Perm (l.map Crate.name) ["root", "a", "b", "c"]
        ∧ l.head? = some ⟨"root", ["a", "b"]⟩)
    ∧ in_tree_crates exampleGraphExt "root" none
        = some [⟨"root", ["a", "serde"]⟩, ⟨"a", []⟩] := by
  refine ⟨?_, ?_, by decide⟩
  · intro g root target l h
    exact inTreeGo_values g target _ _ _ _ _ (by simp) h
  · exact ⟨[⟨"root", ["a", "b"]⟩, ⟨"b", []⟩, ⟨"a", ["c"]⟩, ⟨"c", []⟩],
      by decide, by decide, rfl⟩

/-- Witness for C6: applying the exclusion property to the concrete extended
graph shows each returned crate is a crate of that graph. -/
theorem in_tree_crates_closure_witness :
    ∀ c ∈ [(⟨"root", ["a", "serde"]⟩ : Crate), ⟨"a", []⟩],
      ∃ p ∈ exampleGraphExt.crates, p.2 = c :=
  in_tree_crates_closure.1 exampleGraphExt "root" none
    [⟨"root", ["a", "serde"]⟩, ⟨"a", []⟩] in_tree_crates_closure.2.2

lemma readStampGo_eq_mapM (parts : List (List Nat)) :
    readStampGo parts = (parts.filter (fun p => !p.isEmpty)).mapM parseRecord := by
  induction parts with
  | nil => rfl
  | cons part parts ih =>
    cases part with
    | nil => simpa [readStampGo] using ih
    | cons b rest =>
      simp only [readStampGo, List.filter_cons, List.isEmpty_cons, Bool.not_false, if_pos,
        List.mapM_cons]
      cases hd : (if b = 104 then some DependencyType.Host
          else if b = 115 then some DependencyType.TargetSelfContained
          else if b = 116 then some DependencyType.Target
          else none) with
      | none => simp [parseRecord, hd]
      | some d =>
        cases hu : utf8Decode rest with
        | none => simp [parseRecord, hd, hu]
        | some p =>
          simp only [parseRecord, hd, hu, ih]
          cases (parts.filter (fun p => !p.isEmpty)).mapM parseRecord <;> rfl

lemma mapM_none_of_mem {α β : Type} (f : α → Option β) (l : List α) (x : α)
    (hx : x ∈ l) (hf : f x = none) : l.mapM f = none := by
  induction l with
  | nil => cases hx
  | cons y ys ih =>
    rw [List.mapM_cons]
    rcases List.mem_cons.mp hx with rfl | h
    · rw [hf]; rfl
    · cases hy : f y with
      | none => rfl
      | some v =>
        rw [ih h]
        rfl

/-- Claim C3: `read_stamp_file` parses zero-byte-separated records, skipping empty
records, with each non-empty record's first byte selecting the dependency
class — `h` (104) gives `Host`, `s` (115) gives `TargetSelfContained`, `t`
(116) gives `Target`, the tail is the UTF-8-decoded path — and any record
with any other first byte (such as `x` = 120) makes the whole parse fail,
never silently defaulting or dropping the record. -/
theorem read_stamp_file_format :
    (∀ contents : List Nat,
      read_stamp_file false contents
        = ((contents.splitOn 0).filter (fun p => !p.isEmpty)).mapM parseRecord)
    ∧ (∀ (contents part : List Nat) (b : Nat),
        part ∈ contents.splitOn 0 → part.head? = some b →
        b ≠ 104 → b ≠ 115 → b ≠ 116 →
        read_stamp_file false contents = none)
    ∧ read_stamp_file false [104, 97, 0, 0, 115, 98, 0, 116, 99]
        = some [([97], DependencyType.Host), ([98], DependencyType.TargetSelfContained),
            ([99], DependencyType.Target)]
    ∧ read_stamp_file false [120, 97] = none := by
  have hmain : ∀ contents : List Nat,
      read_stamp_file false contents
        = ((contents.splitOn 0).filter (fun p => !p.isEmpty)).mapM parseRecord := by
    intro contents
    simpa [read_stamp_file] using readStampGo_eq_mapM (contents.splitOn 0)
  refine ⟨hmain, ?_, by decide, by decide⟩
  intro contents part b hmem hhead h104 h115 h116
  rw [hmain]
  cases part with
  | nil => simp at hhead
  | cons b0 rest =>
    have hb : b0 = b := by simpa using hhead
    subst hb
    refine mapM_none_of_mem _ _ (b0 :: rest) ?_ ?_
    · exact List.mem_filter.mpr ⟨hmem, by simp⟩
    · simp [parseRecord, h104, h115, h116]

/-- Witness for C3: a stamp file whose second record has the unrecognized tag
byte `x` (120) fails to parse as a whole. -/
theorem read_stamp_file_format_witness :
    read_stamp_file false [116, 97, 0, 120, 98] = none :=
  read_stamp_file_format.2.1 [116, 97, 0, 120, 98] [120, 98] 120
    (by decide) rfl (by decide) (by decide) (by decide)

/-- Claim C8: when the deferred-failure list is non-empty, every recorded failure is
among the printed lines and the process exits with code 1; when it is empty,
nothing is printed and no exit is taken on this path. -/
theorem finishBuild_exit_semantics (failures : List String) :
    (failures ≠ [] →
      (finishBuild failures).2 = some 1
        ∧ ∀ f ∈ failures, ("  - " ++ f ++ "\n") ∈ (finishBuild failures).1)
    ∧ (failures = [] → finishBuild failures = ([], none)) := by
  constructor
  · intro hne
    have hlen : failures.length > 0 := List.length_pos.mpr hne
    constructor
    · simp [finishBuild, hlen]
    · intro f hf
      simp only [finishBuild, if_pos hlen]
      exact List.mem_cons_of_mem _ (List.mem_map_of_mem _ hf)
  · rintro rfl
    rfl

/-- Witness for C8: one recorded failure is printed and triggers exit code 1;
the empty list exits through the normal path. -/
theorem finishBuild_exit_semantics_witness :
    ((finishBuild ["cmd failed"]).2 = some 1
      ∧ ("  - " ++ "cmd failed" ++ "\n") ∈ (finishBuild ["cmd failed"]).1)
    ∧ finishBuild [] = ([], none) := by
  refine ⟨?_, (finishBuild_exit_semantics []).2 rfl⟩
  have h := (finishBuild_exit_semantics ["cmd failed"]).1 (by decide)
  exact ⟨h.1, h.2 "cmd failed" (by decide)⟩

/-- Claim C9: `copy` is idempotent — any state produced by a successful `copy` is a
fixpoint of the same `copy` call, so calling it twice leaves the destination
with the same content, permissions and times as calling it once. -/
theorem copy_idempotent (dryRun samePath hardLinkOk : Bool) (s t : CopyState)
    (h : copy dryRun samePath hardLinkOk s = some t) :
    copy dryRun samePath hardLinkOk t = some t := by
  by_cases hd : dryRun = true
  · simp_all [copy]
  · by_cases hp : samePath = true
    · simp_all [copy]
    · simp only [Bool.not_eq_true] at hd hp
      subst hd hp
      match hs : s.srcFile with
      | none => simp [copy, hs] at h
      | some (FileVal.symlink tgt) =>
        simp only [copy, hs, Bool.false_eq_true, if_false, Option.some.injEq] at h
        subst h
        simp [copy, hs]
      | some (FileVal.regular c p a m) =>
        cases hl : hardLinkOk <;>
          · subst hl
            simp only [copy, hs, Bool.false_eq_true, if_false, if_true,
              Option.some.injEq] at h
            subst h
            simp [copy, hs]

/-- Witness for C9: copying a concrete regular file over an empty destination
and then copying again yields the same state. -/
theorem copy_idempotent_witness :
    copy false false false
        { srcFile := some (FileVal.regular [1, 2] 420 5 6), dstFile := none }
      = some { srcFile := some (FileVal.regular [1, 2] 420 5 6),
               dstFile := some ⟨FileVal.regular [1, 2] 420 5 6, false⟩ }
    ∧ copy false false false
        { srcFile := some (FileVal.regular [1, 2] 420 5 6),
          dstFile := some ⟨FileVal.regular [1, 2] 420 5 6, false⟩ }
      = some { srcFile := some (FileVal.regular [1, 2] 420 5 6),
               dstFile := some ⟨FileVal.regular [1, 2] 420 5 6, false⟩ } := by
  refine ⟨rfl, ?_⟩
  exact copy_idempotent false false false
    { srcFile := some (FileVal.regular [1, 2] 420 5 6), dstFile := none }
    { srcFile := some (FileVal.regular [1, 2] 420 5 6),
      dstFile := some ⟨FileVal.regular [1, 2] 420 5 6, false⟩ } rfl

/-- Witness for C5: the four concrete scenarios of the specification at
version `"1.2.3"`, including the fall-through channel. -/
theorem release_characterization_witness :
    release "stable" false 0 "1.2.3" = "1.2.3"
    ∧ release "beta" false 0 "1.2.3" = "1.2.3-beta"
    ∧ release "nightly" false 0 "1.2.3" = "1.2.3-nightly"
    ∧ release "anything-else" false 0 "1.2.3" = "1.2.3-dev" := by
  refine ⟨(release_characterization "1.2.3" false 0).1,
    (release_characterization "1.2.3" false 0).2.2.1,
    (release_characterization "1.2.3" false 0).2.2.2.1,
    ?_⟩
  exact (release_characterization "1.2.3" false 0).2.2.2.2 "anything-else"
    (by decide) (by decide) (by decide)

end Bootstrap
